import Mathlib

/-!
Verification of the Fill-Simulator repository.

This file gives a shallow embedding of the simulator's core
(`FillSimulator` in `fill_simulator.cpp`, latest variant: the one with the
latency model and queue simulation) and of the queue-mode book
reconstruction, and proves/refutes the frozen claims about it.

Modelling conventions:
* C++ `int64_t` prices and accumulators are Lean `Int` (signed overflow is
  undefined behaviour in the source, so the mathematical integers are the
  model); `uint32_t`/`uint64_t` arithmetic is `Nat` with explicit
  reduction mod `2^32` / `2^64` at each arithmetic site.
* `std::unordered_map` is an association list with overwrite-insert;
  `std::map` ordering is rendered by explicit min/max key selection.
* The strategy (a virtual class in the source) is an oracle
  `Nat → List OrderAction`: the `n`-th strategy callback of a run returns
  the `n`-th list.  Every theorem quantifies over the oracle, so it covers
  every strategy.
* The mutual recursion `processFill → strategy → processAction →
  processFill` is unbounded in the source; it is embedded with a fuel
  parameter, every theorem holding for all fuel values.
-/

namespace FillSim

/-- `INT64_MAX`, the C++ sentinel for "no ask". -/
def INT64_MAX : Int := 9223372036854775807

/-- `MAX_REASONABLE_PRICE = 10000LL * 1000000000LL` ($10,000 in nanos). -/
def MAX_REASONABLE_PRICE : Int := 10000 * 1000000000

/-- `MIN_PROCESSING_INTERVAL = 100000` ns, the book-top coalescer bound. -/
def MIN_PROCESSING_INTERVAL : Nat := 100000

/-- `2^32`, the modulus of `uint32_t` arithmetic. -/
def U32 : Nat := 4294967296

/-- `2^64`, the modulus of `uint64_t` arithmetic. -/
def U64 : Nat := 18446744073709551616

/-- `uint32_t` addition. -/
def u32add (a b : Nat) : Nat := (a + b) % U32

/-- `uint32_t` subtraction (wraps around below zero). -/
def u32sub (a b : Nat) : Nat := (a % U32 + (U32 - b % U32)) % U32

/-- `uint64_t` addition. -/
def u64add (a b : Nat) : Nat := (a + b) % U64

/-- `uint64_t` subtraction (wraps around below zero). -/
def u64sub (a b : Nat) : Nat := (a % U64 + (U64 - b % U64)) % U64

/-- `book_top_level_t`: one level of the book top (prices in nanos). -/
structure BookTopLevel where
  bid_nanos : Int
  ask_nanos : Int
  bid_qty : Nat
  ask_qty : Nat
  deriving DecidableEq, Repr

/-- `book_top_t`: a top-of-book snapshot with three levels. -/
structure BookTop where
  ts : Nat
  seqno : Nat
  top_level : BookTopLevel
  second_level : BookTopLevel
  third_level : BookTopLevel
  deriving DecidableEq, Repr

/-- `book_fill_snapshot_t`: a public fill event. -/
structure BookFillSnapshot where
  ts : Nat
  seq_no : Nat
  resting_order_id : Nat
  was_hidden : Bool
  trade_price : Int
  trade_qty : Nat
  execution_id : Nat
  resting_original_qty : Nat
  resting_order_remaining_qty : Nat
  resting_order_last_update_ts : Nat
  resting_side_is_bid : Bool
  resting_side_price : Int
  resting_side_qty : Nat
  opposing_side_price : Int
  opposing_side_qty : Nat
  resting_side_number_of_orders : Nat
  deriving DecidableEq, Repr

/-- `OrderAction::Type`. -/
inductive ActionType where
  | ADD
  | CANCEL
  | REPLACE
  deriving DecidableEq, Repr

/-- `OrderAction`: an order instruction returned by a strategy. -/
structure OrderAction where
  type : ActionType
  orderId : Nat
  symbolId : Nat
  sent_ts : Nat
  md_ts : Nat
  price : Int
  quantity : Nat
  isBid : Bool
  isPostOnly : Bool
  deriving DecidableEq, Repr

/-- `FillSimulator::OrderInfo`: a live simulated order. -/
structure OrderInfo where
  orderId : Nat
  symbolId : Nat
  sent_ts : Nat
  md_ts : Nat
  price : Int
  quantity : Nat
  filledQuantity : Nat
  isBid : Bool
  isPostOnly : Bool
  deriving DecidableEq, Repr

/-- `FillSimulator::OrderRecord`: one output-file lifecycle record.
The source leaves `old_price`/`old_quantity` default-initialised except for
replace records; the embedding uses 0 for that default. -/
structure OrderRecord where
  timestamp : Nat
  event_type : Nat
  order_id : Nat
  symbol_id : Nat
  price : Int
  old_price : Int
  quantity : Nat
  old_quantity : Nat
  is_bid : Bool
  deriving DecidableEq, Repr

/-- `FillSimulator::MarketState`.  The `bidLevels`/`askLevels` `std::map`s
are association lists updated with overwrite semantics. -/
structure MarketState where
  lastBookTop : BookTop
  bidLevels : List (Int × Nat)
  askLevels : List (Int × Nat)
  lastValidMidPrice : Int
  deriving DecidableEq, Repr

/-- `std::map<int64_t,uint32_t>` operator[] assignment: overwrite or insert. -/
def mapSet (m : List (Int × Nat)) (k : Int) (v : Nat) : List (Int × Nat) :=
  (k, v) :: m.filter (fun p => !(p.1 == k))

/-- Lookup in the active-order map (`std::unordered_map::find`). -/
def aFind (m : List (Nat × OrderInfo)) (k : Nat) : Option OrderInfo :=
  (m.find? (fun p => p.1 == k)).map (·.2)

/-- `activeOrders_[k] = v`: overwrite-insert into the active-order map. -/
def aInsert (m : List (Nat × OrderInfo)) (k : Nat) (v : OrderInfo) :
    List (Nat × OrderInfo) :=
  (k, v) :: m.filter (fun p => !(p.1 == k))

/-- `activeOrders_.erase(k)`. -/
def aErase (m : List (Nat × OrderInfo)) (k : Nat) : List (Nat × OrderInfo) :=
  m.filter (fun p => !(p.1 == k))

/-- The whole mutable state of one `FillSimulator` instance: market state,
the `lastProcessedTime` static of `processBookTop`, the active-order map,
P&L accumulators, counters, latency statistics, the stream of written
`OrderRecord`s, and the strategy-oracle cursor. -/
structure SimState where
  market : MarketState
  lastProcessedTime : Nat
  activeOrders : List (Nat × OrderInfo)
  position : Int
  cashFlow : Int
  totalOrdersPlaced : Nat
  totalOrdersFilled : Nat
  totalBuyVolume : Nat
  totalSellVolume : Nat
  latMdEvents : Nat
  latMdToStrategy : Nat
  latStrategyToExchange : Nat
  latExchangeToNotification : Nat
  records : List OrderRecord
  oracleIdx : Nat
  deriving DecidableEq, Repr

/-- The two fixed latency configuration parameters. -/
structure Config where
  mdLatencyNs : Nat
  exchLatencyNs : Nat
  deriving DecidableEq, Repr

/-- `FillSimulator::applyMdLatency`. -/
def applyMdLatency (cfg : Config) (timestamp : Nat) : Nat :=
  u64add timestamp cfg.mdLatencyNs

/-- `FillSimulator::applyExchangeLatency`. -/
def applyExchangeLatency (cfg : Config) (timestamp : Nat) : Nat :=
  u64add timestamp cfg.exchLatencyNs

/-- `FillSimulator::wouldOrderBeFilled` (lines 180-204 of the latest
variant, identical in the mid variant): pure in the simulator state. -/
def wouldOrderBeFilled (ms : MarketState) (isBid : Bool) (price : Int)
    (quantity : Nat) : Bool :=
  if price ≤ 0 ∨ quantity = 0 then false
  else if isBid then
    let bestAsk := ms.lastBookTop.top_level.ask_nanos
    if bestAsk ≤ 0 ∨ bestAsk = INT64_MAX then false
    else decide (price ≥ bestAsk)
  else
    let bestBid := ms.lastBookTop.top_level.bid_nanos
    if bestBid ≤ 0 ∨ bestBid = INT64_MAX then false
    else decide (price ≤ bestBid)

/-- The validity filter of `processBookTop` (latest variant, lines 68-75):
a top is kept iff bid and ask are positive, bid < ask, and neither
exceeds `MAX_REASONABLE_PRICE`. -/
def bookTopValid (bt : BookTop) : Bool :=
  !(bt.top_level.bid_nanos ≤ 0 ∨
    bt.top_level.ask_nanos ≤ 0 ∨
    bt.top_level.bid_nanos ≥ bt.top_level.ask_nanos ∨
    bt.top_level.bid_nanos > MAX_REASONABLE_PRICE ∨
    bt.top_level.ask_nanos > MAX_REASONABLE_PRICE)

/-- C++ `/` on `int64_t`: truncation toward zero. -/
def cppDiv (a b : Int) : Int := Int.tdiv a b

/-- The `event_type=1` record written by the ADD branch of `processAction`. -/
def addRecordOf (a : OrderAction) : OrderRecord :=
  { timestamp := a.md_ts, event_type := 1, order_id := a.orderId,
    symbol_id := a.symbolId, price := a.price, old_price := 0,
    quantity := a.quantity, old_quantity := 0, is_bid := a.isBid }

/-- The `event_type=2` record written when a crossing post-only ADD is
auto-cancelled. -/
def postOnlyCancelRecordOf (a : OrderAction) : OrderRecord :=
  { timestamp := a.md_ts, event_type := 2, order_id := a.orderId,
    symbol_id := a.symbolId, price := a.price, old_price := 0,
    quantity := a.quantity, old_quantity := 0, is_bid := a.isBid }

/-- The fresh `OrderInfo` built by the ADD branch of `processAction`
(lines 306-315): all fields from the action, `filledQuantity = 0`. -/
def freshOrderOf (a : OrderAction) : OrderInfo :=
  { orderId := a.orderId, symbolId := a.symbolId, sent_ts := a.sent_ts,
    md_ts := a.md_ts, price := a.price, quantity := a.quantity,
    filledQuantity := 0, isBid := a.isBid, isPostOnly := a.isPostOnly }

/-- The per-action latency stamping done at the head of each
strategy-action loop (`processBookTop` lines 104-111, `processBookFill`
lines 164-171, `processFill` lines 279-287): if the strategy left
`sent_ts` zero it becomes the (delayed) timestamp `tsBase` the action
responds to, and `md_ts` becomes `tsBase` plus the exchange latency. -/
def delayedActionOf (cfg : Config) (tsBase : Nat) (action : OrderAction) :
    OrderAction :=
  let exchangeReceiveTime := applyExchangeLatency cfg tsBase
  let a := if action.sent_ts = 0 then { action with sent_ts := tsBase }
           else action
  { a with md_ts := exchangeReceiveTime }

/-- `latencyStats_.totalExchangeToNotificationLatencyNs += exchangeLatencyNs_`. -/
def bumpExchToNotif (cfg : Config) (s : SimState) : SimState :=
  { s with latExchangeToNotification := u64add s.latExchangeToNotification cfg.exchLatencyNs }

/-- `latencyStats_.totalStrategyToExchangeLatencyNs += exchangeLatencyNs_`,
done once per strategy-returned action. -/
def bumpStrategyToExchange (cfg : Config) (s : SimState) : SimState :=
  { s with latStrategyToExchange := u64add s.latStrategyToExchange cfg.exchLatencyNs }

/-- The body of `FillSimulator::processFill` (lines 207-271) up to and
including the full-fill erase, i.e. everything before the
`strategy_->onOrderFilled` callback.  Returns `none` on the two
early-return paths (unknown order; invalid price or zero quantity),
otherwise the updated state and the resolved fill-notification time. -/
def processFillCore (cfg : Config) (s : SimState) (orderId : Nat)
    (fillPrice : Int) (fillQty : Nat) (isBid : Bool)
    (fillNotificationTime : Nat) : Option (SimState × Nat) :=
  match aFind s.activeOrders orderId with
  | none => none
  | some order =>
    if fillPrice ≤ 0 ∨ fillPrice = INT64_MAX ∨ fillQty = 0 then none
    else
      let fnt := if fillNotificationTime = 0
                 then applyExchangeLatency cfg s.market.lastBookTop.ts
                 else fillNotificationTime
      let s := if fnt > 0 then bumpExchToNotif cfg s else s
      let symbolId := order.symbolId
      let totalQuantity := order.quantity
      let newFilled := u32add order.filledQuantity fillQty
      let updatedOrder := { order with filledQuantity := newFilled }
      let s := { s with activeOrders := aInsert s.activeOrders orderId updatedOrder }
      let record : OrderRecord :=
        { timestamp := fnt, event_type := 3, order_id := orderId,
          symbol_id := symbolId, price := fillPrice, old_price := 0,
          quantity := fillQty, old_quantity := 0, is_bid := isBid }
      let s := { s with records := s.records ++ [record] }
      let s := if isBid then
          { s with position := s.position + (fillQty : Int),
                   cashFlow := s.cashFlow - fillPrice * (fillQty : Int),
                   totalBuyVolume := u64add s.totalBuyVolume fillQty }
        else
          { s with position := s.position - (fillQty : Int),
                   cashFlow := s.cashFlow + fillPrice * (fillQty : Int),
                   totalSellVolume := u64add s.totalSellVolume fillQty }
      let s := { s with totalOrdersFilled := u64add s.totalOrdersFilled 1 }
      let s := if totalQuantity ≤ newFilled
               then { s with activeOrders := aErase s.activeOrders orderId }
               else s
      some (s, fnt)

/-- The three mutually recursive pieces of the order manager:
`processFill`, `processAction`, and one strategy-action loop. -/
inductive Call where
  | fill (orderId : Nat) (fillPrice : Int) (fillQty : Nat) (isBid : Bool)
      (fillNotificationTime : Nat)
  | action (a : OrderAction) (bt : BookTop)
  | actions (l : List OrderAction) (tsBase : Nat) (bt : BookTop)

/-- Fuel-indexed execution of `processFill` / `processAction` / the
strategy-action loops.  At fuel 0 every call is a no-op; each theorem
quantifies over the fuel, and any terminating source execution is the
behaviour at all sufficiently large fuels. -/
def exec (cfg : Config) (oracle : Nat → List OrderAction) :
    Nat → Call → SimState → SimState
  | 0, _, s => s
  | Nat.succ fuel, Call.fill orderId fillPrice fillQty isBid fnt0, s =>
    match processFillCore cfg s orderId fillPrice fillQty isBid fnt0 with
    | none => s
    | some (s1, fnt) =>
      let notificationBookTop := { s1.market.lastBookTop with ts := fnt }
      let acts := oracle s1.oracleIdx
      let s2 := { s1 with oracleIdx := s1.oracleIdx + 1 }
      exec cfg oracle fuel (Call.actions acts fnt notificationBookTop) s2
  | Nat.succ fuel, Call.action a bt, s =>
    let s := if (a.type = ActionType.ADD ∨ a.type = ActionType.REPLACE) ∧
                wouldOrderBeFilled s.market a.isBid a.price a.quantity = true
             then bumpExchToNotif cfg s
             else s
    match a.type with
    | ActionType.ADD =>
      let order := freshOrderOf a
      let s := { s with activeOrders := aInsert s.activeOrders a.orderId order,
                        totalOrdersPlaced := u64add s.totalOrdersPlaced 1 }
      let s := { s with records := s.records ++ [addRecordOf a] }
      if wouldOrderBeFilled s.market a.isBid a.price a.quantity then
        if a.isPostOnly then
          let s := { s with activeOrders := aErase s.activeOrders a.orderId }
          { s with records := s.records ++ [postOnlyCancelRecordOf a] }
        else
          let fillPrice := if a.isBid then bt.top_level.ask_nanos
                           else bt.top_level.bid_nanos
          let fnt := applyExchangeLatency cfg a.md_ts
          exec cfg oracle fuel (Call.fill a.orderId fillPrice a.quantity a.isBid fnt) s
      else s
    | ActionType.CANCEL =>
      match aFind s.activeOrders a.orderId with
      | none => s
      | some order =>
        let s := { s with activeOrders := aErase s.activeOrders a.orderId }
        { s with records := s.records ++
            [{ timestamp := a.md_ts, event_type := 2, order_id := a.orderId,
               symbol_id := order.symbolId, price := order.price, old_price := 0,
               quantity := order.quantity, old_quantity := 0,
               is_bid := order.isBid }] }
    | ActionType.REPLACE =>
      match aFind s.activeOrders a.orderId with
      | none => s
      | some order =>
        let updated : OrderInfo :=
          { order with price := a.price, quantity := a.quantity,
                       sent_ts := if a.sent_ts > 0 then a.sent_ts else order.sent_ts,
                       md_ts := if a.md_ts > 0 then a.md_ts else order.md_ts }
        let s := { s with activeOrders := aInsert s.activeOrders a.orderId updated }
        let s := { s with records := s.records ++
            [{ timestamp := a.md_ts, event_type := 4, order_id := a.orderId,
               symbol_id := order.symbolId, price := a.price,
               old_price := order.price, quantity := a.quantity,
               old_quantity := order.quantity, is_bid := order.isBid }] }
        if wouldOrderBeFilled s.market updated.isBid a.price a.quantity then
          if updated.isPostOnly then
            let s := { s with activeOrders := aErase s.activeOrders a.orderId }
            { s with records := s.records ++
                [{ timestamp := a.md_ts, event_type := 2, order_id := a.orderId,
                   symbol_id := updated.symbolId, price := a.price, old_price := 0,
                   quantity := a.quantity, old_quantity := 0,
                   is_bid := updated.isBid }] }
          else
            let fillPrice := if updated.isBid then bt.top_level.ask_nanos
                             else bt.top_level.bid_nanos
            let fnt := applyExchangeLatency cfg a.md_ts
            exec cfg oracle fuel
              (Call.fill a.orderId fillPrice a.quantity updated.isBid fnt) s
        else s
  | Nat.succ _, Call.actions [] _ _, s => s
  | Nat.succ fuel, Call.actions (action :: rest) tsBase bt, s =>
    let delayedAction := delayedActionOf cfg tsBase action
    let s := bumpStrategyToExchange cfg s
    let s := exec cfg oracle fuel (Call.action delayedAction bt) s
    exec cfg oracle fuel (Call.actions rest tsBase bt) s

/-- The "check if any existing orders would now be filled" loop at the end
of `processBookTop` (latest variant, lines 119-148), determinised over a
snapshot of the order keys (the source iterates the live `unordered_map`
with an explicit next-iterator capture; iteration order is unspecified). -/
def reevalLoop (cfg : Config) (oracle : Nat → List OrderAction) (fuel : Nat)
    (bt : BookTop) : List Nat → SimState → SimState
  | [], s => s
  | k :: rest, s =>
    match aFind s.activeOrders k with
    | none => reevalLoop cfg oracle fuel bt rest s
    | some order =>
      if wouldOrderBeFilled s.market order.isBid order.price
          (u32sub order.quantity order.filledQuantity) then
        let fillPrice := if order.isBid then bt.top_level.ask_nanos
                         else bt.top_level.bid_nanos
        let remainingQty := u32sub order.quantity order.filledQuantity
        let fnt := applyExchangeLatency cfg order.md_ts
        reevalLoop cfg oracle fuel bt rest
          (exec cfg oracle fuel
            (Call.fill order.orderId fillPrice remainingQty order.isBid fnt) s)
      else reevalLoop cfg oracle fuel bt rest s

/-- `FillSimulator::processBookTop` (latest variant, lines 57-149):
coalescer, validity filter, market-state update, delayed delivery to the
strategy, strategy-action processing, re-evaluation loop. -/
def processBookTop (cfg : Config) (oracle : Nat → List OrderAction)
    (fuel : Nat) (s : SimState) (bookTop : BookTop) : SimState :=
  if s.lastProcessedTime > 0 ∧
      u64sub bookTop.ts s.lastProcessedTime < MIN_PROCESSING_INTERVAL then s
  else if bookTopValid bookTop = false then s
  else
    let s := { s with lastProcessedTime := bookTop.ts }
    let midPrice := cppDiv (bookTop.top_level.bid_nanos + bookTop.top_level.ask_nanos) 2
    let ms := { s.market with lastBookTop := bookTop, lastValidMidPrice := midPrice }
    let newBidLevels :=
      mapSet (mapSet (mapSet ms.bidLevels
          bookTop.top_level.bid_nanos bookTop.top_level.bid_qty)
        bookTop.second_level.bid_nanos bookTop.second_level.bid_qty)
      bookTop.third_level.bid_nanos bookTop.third_level.bid_qty
    let newAskLevels :=
      mapSet (mapSet (mapSet ms.askLevels
          bookTop.top_level.ask_nanos bookTop.top_level.ask_qty)
        bookTop.second_level.ask_nanos bookTop.second_level.ask_qty)
      bookTop.third_level.ask_nanos bookTop.third_level.ask_qty
    let ms := { ms with bidLevels := newBidLevels, askLevels := newAskLevels }
    let s := { s with market := ms }
    let delayedTs := applyMdLatency cfg bookTop.ts
    let s := { s with latMdEvents := u64add s.latMdEvents 1,
                      latMdToStrategy := u64add s.latMdToStrategy cfg.mdLatencyNs }
    let acts := oracle s.oracleIdx
    let s := { s with oracleIdx := s.oracleIdx + 1 }
    let s := exec cfg oracle fuel (Call.actions acts delayedTs bookTop) s
    reevalLoop cfg oracle fuel bookTop (s.activeOrders.map (·.1)) s

/-- `FillSimulator::processBookFill` (latest variant, lines 152-177). -/
def processBookFill (cfg : Config) (oracle : Nat → List OrderAction)
    (fuel : Nat) (s : SimState) (fill : BookFillSnapshot) : SimState :=
  let delayedTs := applyMdLatency cfg fill.ts
  let s := { s with latMdEvents := u64add s.latMdEvents 1,
                    latMdToStrategy := u64add s.latMdToStrategy cfg.mdLatencyNs }
  let acts := oracle s.oracleIdx
  let s := { s with oracleIdx := s.oracleIdx + 1 }
  exec cfg oracle fuel (Call.actions acts delayedTs s.market.lastBookTop) s

/-- One merged input event of the tops/fills driver loop. -/
inductive InEvent where
  | top (bt : BookTop)
  | fill (f : BookFillSnapshot)

/-- The tops/fills driver loop of `runSimulation`, over an arbitrary
timestamp-merged event sequence. -/
def runTrace (cfg : Config) (oracle : Nat → List OrderAction) (fuel : Nat) :
    SimState → List InEvent → SimState
  | s, [] => s
  | s, InEvent.top bt :: rest =>
    runTrace cfg oracle fuel (processBookTop cfg oracle fuel s bt) rest
  | s, InEvent.fill f :: rest =>
    runTrace cfg oracle fuel (processBookFill cfg oracle fuel s f) rest

/-- The all-zero book top (the embedding's defined stand-in for the
default-initialised `book_top_t` member of a fresh `MarketState`). -/
def zeroBookTop : BookTop :=
  { ts := 0, seqno := 0,
    top_level := { bid_nanos := 0, ask_nanos := 0, bid_qty := 0, ask_qty := 0 },
    second_level := { bid_nanos := 0, ask_nanos := 0, bid_qty := 0, ask_qty := 0 },
    third_level := { bid_nanos := 0, ask_nanos := 0, bid_qty := 0, ask_qty := 0 } }

/-- One entry of a price level's FIFO queue (`FillSimulator::order_t`). -/
structure BookOrder where
  order_id : Nat
  qty : Nat
  timestamp : Nat
  deriving DecidableEq, Repr

/-- `level_t = std::pair<qty_t, order_queue_t>`: total quantity and FIFO. -/
abbrev Level := Nat × List BookOrder

/-- `book_side_t = std::map<price_t, level_t>`, rendered as an association
list with at most one entry per price; the map's key ordering is rendered
by explicit min/max-key selection. -/
abbrev BookSide := List (Int × Level)

/-- `book.find(price)`. -/
def sideFind (b : BookSide) (p : Int) : Option Level :=
  (b.find? (fun e => e.1 == p)).map (·.2)

/-- `book[price] = level`: overwrite-insert. -/
def sideSet (b : BookSide) (p : Int) (l : Level) : BookSide :=
  (p, l) :: b.filter (fun e => !(e.1 == p))

/-- `book.erase(price)`. -/
def sideErase (b : BookSide) (p : Int) : BookSide :=
  b.filter (fun e => !(e.1 == p))

/-- All prices present on a side. -/
def sideKeys (b : BookSide) : List Int := b.map (·.1)

/-- Total quantity at a price (0 when the level is absent). -/
def levelTotalAt (b : BookSide) (p : Int) : Nat :=
  match sideFind b p with
  | none => 0
  | some l => l.1

/-- Insert into an ascending-sorted list. -/
def insertSorted (x : Int) : List Int → List Int
  | [] => [x]
  | y :: ys => if x ≤ y then x :: y :: ys else y :: insertSorted x ys

/-- Ascending sort of a key list. -/
def sortAsc (l : List Int) : List Int := l.foldr insertSorted []

/-- `rbegin()->first` of a `std::map`: the greatest key. -/
def maxKey? (b : BookSide) : Option Int := (sortAsc (sideKeys b)).getLast?

/-- `begin()->first` of a `std::map`: the least key. -/
def minKey? (b : BookSide) : Option Int := (sortAsc (sideKeys b)).head?

/-- `order_ref_t` without the list iterator: the iterator is rendered by
the (unique) queue entry carrying the order id. -/
structure OrderRef where
  price : Int
  is_bid : Bool
  deriving DecidableEq, Repr

/-- `order_map.find(id)`. -/
def omFind (m : List (Nat × OrderRef)) (k : Nat) : Option OrderRef :=
  (m.find? (fun p => p.1 == k)).map (·.2)

/-- `order_map[id] = ref`: overwrite-insert. -/
def omSet (m : List (Nat × OrderRef)) (k : Nat) (v : OrderRef) :
    List (Nat × OrderRef) :=
  (k, v) :: m.filter (fun p => !(p.1 == k))

/-- `order_map.erase(id)`. -/
def omErase (m : List (Nat × OrderRef)) (k : Nat) : List (Nat × OrderRef) :=
  m.filter (fun p => !(p.1 == k))

/-- Dereference the stored queue iterator: the first entry with this id. -/
def queueFind (q : List BookOrder) (id : Nat) : Option BookOrder :=
  q.find? (fun o => o.order_id == id)

/-- `queue.erase(order_it)`: drop the first entry with this id. -/
def queueEraseFirst : List BookOrder → Nat → List BookOrder
  | [], _ => []
  | o :: rest, id => if o.order_id = id then rest
                     else o :: queueEraseFirst rest id

/-- In-place mutation through the stored queue iterator. -/
def queueUpdate : List BookOrder → Nat → (BookOrder → BookOrder) → List BookOrder
  | [], _, _ => []
  | o :: rest, id, f => if o.order_id = id then f o :: rest
                        else o :: queueUpdate rest id f

/-- The ten `book_event_type_e` payloads of the queue-mode stream. -/
inductive BookEvent where
  | addOrder (price : Int) (order_id : Nat) (qty : Nat) (is_bid : Bool)
  | deleteOrder (order_id : Nat)
  | replaceOrder (price : Int) (orig_order_id : Nat) (new_order_id : Nat) (qty : Nat)
  | amendOrder (order_id : Nat) (new_qty : Nat)
  | reduceOrder (order_id : Nat) (cxled_qty : Nat)
  | executeOrder (order_id : Nat) (traded_qty : Nat) (execution_id : Nat)
  | executeOrderAtPrice (order_id : Nat) (traded_qty : Nat) (execution_id : Nat)
      (execution_price : Int)
  | clearBook
  | sessionEvent (allow_crossed_book : Bool)
  | hiddenTrade (fill_price : Int) (resting_order_id : Nat) (fill_qty : Nat)
      (resting_is_bid : Bool) (execution_id : Nat)
  deriving DecidableEq, Repr

/-- The local state of `runQueueSimulation`: both book sides, the order
map, the maintained `currentTop`, and the owning simulator state. -/
structure QueueState where
  bidBook : BookSide
  askBook : BookSide
  orderMap : List (Nat × OrderRef)
  currentTop : BookTop
  sim : SimState
  deriving DecidableEq, Repr

/-- `updateTopLevels` (lines 578-663): rebuild `currentTop`'s three levels
from the reconstructed book (zero / `INT64_MAX` fill when depth < 3), then
zero/sentinel the top-level prices that exceed `MAX_REASONABLE_PRICE`. -/
def updateTopLevels (bidBook askBook : BookSide) (ct : BookTop) : BookTop :=
  let bidKeys := (sortAsc (sideKeys bidBook)).reverse
  let askKeys := sortAsc (sideKeys askBook)
  let bids : (Int × Nat) × (Int × Nat) × (Int × Nat) :=
    match bidKeys with
    | [] => ((0, 0), (0, 0), (0, 0))
    | k1 :: rest1 =>
      match rest1 with
      | [] => ((k1, levelTotalAt bidBook k1), (0, 0), (0, 0))
      | k2 :: rest2 =>
        match rest2 with
        | [] => ((k1, levelTotalAt bidBook k1), (k2, levelTotalAt bidBook k2), (0, 0))
        | k3 :: _ => ((k1, levelTotalAt bidBook k1), (k2, levelTotalAt bidBook k2),
                      (k3, levelTotalAt bidBook k3))
  let asks : (Int × Nat) × (Int × Nat) × (Int × Nat) :=
    match askKeys with
    | [] => ((INT64_MAX, 0), (INT64_MAX, 0), (INT64_MAX, 0))
    | k1 :: rest1 =>
      match rest1 with
      | [] => ((k1, levelTotalAt askBook k1), (INT64_MAX, 0), (INT64_MAX, 0))
      | k2 :: rest2 =>
        match rest2 with
        | [] => ((k1, levelTotalAt askBook k1), (k2, levelTotalAt askBook k2),
                 (INT64_MAX, 0))
        | k3 :: _ => ((k1, levelTotalAt askBook k1), (k2, levelTotalAt askBook k2),
                      (k3, levelTotalAt askBook k3))
  let bidTop := if bids.1.1 > MAX_REASONABLE_PRICE then ((0 : Int), 0) else bids.1
  let askTop := if asks.1.1 > MAX_REASONABLE_PRICE ∧ asks.1.1 ≠ INT64_MAX
                then (INT64_MAX, 0) else asks.1
  { ct with
    top_level := { bid_nanos := bidTop.1, ask_nanos := askTop.1,
                   bid_qty := bidTop.2, ask_qty := askTop.2 },
    second_level := { bid_nanos := bids.2.1.1, ask_nanos := asks.2.1.1,
                      bid_qty := bids.2.1.2, ask_qty := asks.2.1.2 },
    third_level := { bid_nanos := bids.2.2.1, ask_nanos := asks.2.2.1,
                     bid_qty := bids.2.2.2, ask_qty := asks.2.2.2 } }

/-- The delete-an-order-from-its-level body shared by the `delete_order`
handler and the delete phase of `replace_order` (lines 714-741): debit the
entry's quantity from the level total, flag a top change when the order
rested at the current best, unlink the entry, and drop the level when its
total reaches zero.  (The source dereferences the stored queue iterator;
an absent entry is rendered as quantity 0 and no unlink.) -/
def deleteFromBook (book : BookSide) (ct : BookTop) (ref : OrderRef)
    (id : Nat) : BookSide × Bool :=
  match sideFind book ref.price with
  | none => (book, false)
  | some level =>
    let entryQty := match queueFind level.2 id with
                    | some e => e.qty
                    | none => 0
    let total := u32sub level.1 entryQty
    let topChanged := (ref.is_bid ∧ ref.price = ct.top_level.bid_nanos) ∨
                      (¬ref.is_bid ∧ ref.price = ct.top_level.ask_nanos)
    let queue := queueEraseFirst level.2 id
    let book := if total = 0 then sideErase book ref.price
                else sideSet book ref.price (total, queue)
    (book, decide topChanged)

/-- The insert-a-new-order body shared by the `add_order` handler and the
insert phase of `replace_order`: create the level if absent, append to the
FIFO, credit the level total, record the order reference, and flag a top
change when the new order is at (or establishes) the best of its side. -/
def insertIntoBook (book : BookSide) (ts : Nat) (price : Int) (id qty : Nat)
    (is_bid : Bool) : BookSide × Bool :=
  let level := match sideFind book price with
               | none => ((0 : Nat), ([] : List BookOrder))
               | some l => l
  let level := (u32add level.1 qty,
                level.2 ++ [{ order_id := id, qty := qty, timestamp := ts }])
  let book := sideSet book price level
  let topChanged :=
    if is_bid then
      match maxKey? book with
      | none => true
      | some m => decide (price ≥ m)
    else
      match minKey? book with
      | none => true
      | some m => decide (price ≤ m)
  (book, topChanged)

/-- The state of a freshly constructed `FillSimulator` (constructor,
lines 7-34 of the latest variant): all counters zero, empty books and
order map, `lastValidMidPrice = 0`. -/
def initSimState : SimState :=
  { market := { lastBookTop := zeroBookTop, bidLevels := [], askLevels := [],
                lastValidMidPrice := 0 },
    lastProcessedTime := 0, activeOrders := [], position := 0, cashFlow := 0,
    totalOrdersPlaced := 0, totalOrdersFilled := 0, totalBuyVolume := 0,
    totalSellVolume := 0, latMdEvents := 0, latMdToStrategy := 0,
    latStrategyToExchange := 0, latExchangeToNotification := 0,
    records := [], oracleIdx := 0 }

/-- The `switch (eventHeader.type)` body of `runQueueSimulation`
(lines 674-1030): apply one book event, returning the updated state and
the `topChanged` flag.  `ts`/`seq` are the event header fields.
Queue-iterator dereferences on entries that are absent (impossible for
well-formed streams, undefined behaviour in the source) are rendered as
no-ops; `resting_side_number_of_orders`, never assigned by the source, is
rendered as 0. -/
def applyBookEvent (cfg : Config) (oracle : Nat → List OrderAction)
    (fuel : Nat) (qs : QueueState) (ts seq : Nat) (ev : BookEvent) :
    QueueState × Bool :=
  match ev with
  | BookEvent.addOrder price id qty is_bid =>
    let book := if is_bid then qs.bidBook else qs.askBook
    let ib := insertIntoBook book ts price id qty is_bid
    let qs := if is_bid then { qs with bidBook := ib.1 }
              else { qs with askBook := ib.1 }
    let qs := { qs with orderMap := omSet qs.orderMap id { price := price, is_bid := is_bid } }
    (qs, ib.2)
  | BookEvent.deleteOrder id =>
    match omFind qs.orderMap id with
    | none => (qs, false)
    | some ref =>
      let book := if ref.is_bid then qs.bidBook else qs.askBook
      let db := deleteFromBook book qs.currentTop ref id
      let qs := if ref.is_bid then { qs with bidBook := db.1 }
                else { qs with askBook := db.1 }
      let qs := { qs with orderMap := omErase qs.orderMap id }
      (qs, db.2)
  | BookEvent.replaceOrder price origId newId qty =>
    let origRef? := omFind qs.orderMap origId
    let step1 : QueueState × Bool :=
      match origRef? with
      | none => (qs, false)
      | some ref =>
        let book := if ref.is_bid then qs.bidBook else qs.askBook
        let db := deleteFromBook book qs.currentTop ref origId
        let qs := if ref.is_bid then { qs with bidBook := db.1 }
                  else { qs with askBook := db.1 }
        ({ qs with orderMap := omErase qs.orderMap origId }, db.2)
    let qs := step1.1
    -- Side of the new order: the source reads `orderIt->second.is_bid`
    -- through an iterator invalidated by the erase above (undefined
    -- behaviour, spec section 9 open question 1); the embedding takes the
    -- side that was stored before the erase.
    let isBid := match origRef? with
                 | some ref => ref.is_bid
                 | none => decide (price > 0)
    let book := if isBid then qs.bidBook else qs.askBook
    let ib := insertIntoBook book ts price newId qty isBid
    let qs := if isBid then { qs with bidBook := ib.1 }
              else { qs with askBook := ib.1 }
    let qs := { qs with orderMap := omSet qs.orderMap newId { price := price, is_bid := isBid } }
    (qs, step1.2 || ib.2)
  | BookEvent.amendOrder id newQty =>
    match omFind qs.orderMap id with
    | none => (qs, false)
    | some ref =>
      let book := if ref.is_bid then qs.bidBook else qs.askBook
      match sideFind book ref.price with
      | none => (qs, false)
      | some level =>
        match queueFind level.2 id with
        | none => (qs, false)
        | some entry =>
          let oldQty := entry.qty
          let total := u32add level.1 (u32sub newQty oldQty)
          let queue := queueUpdate level.2 id
            (fun o => { o with qty := newQty, timestamp := ts })
          let book := sideSet book ref.price (total, queue)
          let qs := if ref.is_bid then { qs with bidBook := book }
                    else { qs with askBook := book }
          let topChanged :=
            (ref.is_bid ∧ ref.price = qs.currentTop.top_level.bid_nanos) ∨
            (¬ref.is_bid ∧ ref.price = qs.currentTop.top_level.ask_nanos)
          (qs, decide topChanged)
  | BookEvent.reduceOrder id cxled =>
    match omFind qs.orderMap id with
    | none => (qs, false)
    | some ref =>
      let book := if ref.is_bid then qs.bidBook else qs.askBook
      match sideFind book ref.price with
      | none => (qs, false)
      | some level =>
        match queueFind level.2 id with
        | none => (qs, false)
        | some entry =>
          let newQty := u32sub entry.qty cxled
          let queue := queueUpdate level.2 id
            (fun o => { o with qty := newQty, timestamp := ts })
          let total := u32sub level.1 cxled
          if newQty = 0 then
            let queue2 := queueEraseFirst queue id
            let book2 := if total = 0 then sideErase book ref.price
                         else sideSet book ref.price (total, queue2)
            let qs := if ref.is_bid then { qs with bidBook := book2 }
                      else { qs with askBook := book2 }
            let qs := { qs with orderMap := omErase qs.orderMap id }
            let topChanged :=
              (ref.is_bid ∧ ref.price = qs.currentTop.top_level.bid_nanos) ∨
              (¬ref.is_bid ∧ ref.price = qs.currentTop.top_level.ask_nanos)
            (qs, decide topChanged)
          else
            let book2 := sideSet book ref.price (total, queue)
            let qs := if ref.is_bid then { qs with bidBook := book2 }
                      else { qs with askBook := book2 }
            (qs, false)
  | BookEvent.executeOrder id traded execId =>
    match omFind qs.orderMap id with
    | none => (qs, false)
    | some ref =>
      let book := if ref.is_bid then qs.bidBook else qs.askBook
      match sideFind book ref.price with
      | none => (qs, false)
      | some level =>
        match queueFind level.2 id with
        | none => (qs, false)
        | some entry =>
          let opposing : Int × Nat :=
            if ref.is_bid then
              match minKey? qs.askBook with
              | none => (INT64_MAX, 0)
              | some k => (k, levelTotalAt qs.askBook k)
            else
              match maxKey? qs.bidBook with
              | none => ((0 : Int), 0)
              | some k => (k, levelTotalAt qs.bidBook k)
          let fill : BookFillSnapshot :=
            { ts := ts, seq_no := seq, resting_order_id := id,
              was_hidden := false, trade_price := ref.price,
              trade_qty := traded, execution_id := execId,
              resting_original_qty := entry.qty,
              resting_order_remaining_qty := u32sub entry.qty traded,
              resting_order_last_update_ts := entry.timestamp,
              resting_side_is_bid := ref.is_bid,
              resting_side_price := ref.price, resting_side_qty := level.1,
              opposing_side_price := opposing.1,
              opposing_side_qty := opposing.2,
              resting_side_number_of_orders := 0 }
          let newQty := u32sub entry.qty traded
          let total := u32sub level.1 traded
          let queue := queueUpdate level.2 id (fun o => { o with qty := newQty })
          let book1 := sideSet book ref.price (total, queue)
          let qs := if ref.is_bid then { qs with bidBook := book1 }
                    else { qs with askBook := book1 }
          let qs := { qs with sim := processBookFill cfg oracle fuel qs.sim fill }
          if newQty = 0 then
            let queue2 := queueEraseFirst queue id
            let book2 := if total = 0 then sideErase book1 ref.price
                         else sideSet book1 ref.price (total, queue2)
            let qs := if ref.is_bid then { qs with bidBook := book2 }
                      else { qs with askBook := book2 }
            let qs := { qs with orderMap := omErase qs.orderMap id }
            let topChanged :=
              (ref.is_bid ∧ ref.price = qs.currentTop.top_level.bid_nanos) ∨
              (¬ref.is_bid ∧ ref.price = qs.currentTop.top_level.ask_nanos)
            (qs, decide topChanged)
          else (qs, false)
  | BookEvent.executeOrderAtPrice id traded execId execPrice =>
    match omFind qs.orderMap id with
    | none => (qs, false)
    | some ref =>
      let book := if ref.is_bid then qs.bidBook else qs.askBook
      match sideFind book ref.price with
      | none => (qs, false)
      | some level =>
        match queueFind level.2 id with
        | none => (qs, false)
        | some entry =>
          let opposing : Int × Nat :=
            if ref.is_bid then
              match minKey? qs.askBook with
              | none => (INT64_MAX, 0)
              | some k => (k, levelTotalAt qs.askBook k)
            else
              match maxKey? qs.bidBook with
              | none => ((0 : Int), 0)
              | some k => (k, levelTotalAt qs.bidBook k)
          let fill : BookFillSnapshot :=
            { ts := ts, seq_no := seq, resting_order_id := id,
              was_hidden := false, trade_price := execPrice,
              trade_qty := traded, execution_id := execId,
              resting_original_qty := entry.qty,
              resting_order_remaining_qty := u32sub entry.qty traded,
              resting_order_last_update_ts := entry.timestamp,
              resting_side_is_bid := ref.is_bid,
              resting_side_price := ref.price, resting_side_qty := level.1,
              opposing_side_price := opposing.1,
              opposing_side_qty := opposing.2,
              resting_side_number_of_orders := 0 }
          let newQty := u32sub entry.qty traded
          let total := u32sub level.1 traded
          let queue := queueUpdate level.2 id (fun o => { o with qty := newQty })
          let book1 := sideSet book ref.price (total, queue)
          let qs := if ref.is_bid then { qs with bidBook := book1 }
                    else { qs with askBook := book1 }
          let qs := { qs with sim := processBookFill cfg oracle fuel qs.sim fill }
          if newQty = 0 then
            let queue2 := queueEraseFirst queue id
            let book2 := if total = 0 then sideErase book1 ref.price
                         else sideSet book1 ref.price (total, queue2)
            let qs := if ref.is_bid then { qs with bidBook := book2 }
                      else { qs with askBook := book2 }
            let qs := { qs with orderMap := omErase qs.orderMap id }
            let topChanged :=
              (ref.is_bid ∧ ref.price = qs.currentTop.top_level.bid_nanos) ∨
              (¬ref.is_bid ∧ ref.price = qs.currentTop.top_level.ask_nanos)
            (qs, decide topChanged)
          else (qs, false)
  | BookEvent.clearBook =>
    ({ qs with bidBook := [], askBook := [], orderMap := [] }, true)
  | BookEvent.sessionEvent _ => (qs, false)
  | BookEvent.hiddenTrade _ _ _ _ _ => (qs, false)

/-- One iteration of the `runQueueSimulation` main loop (lines 667-1058):
stamp the event timestamp/seqno onto `currentTop`, apply the event, and on
`topChanged` rebuild the top levels and hand the synthesized `BookTop` to
`processBookTop`. -/
def runQueueStep (cfg : Config) (oracle : Nat → List OrderAction)
    (fuel : Nat) (qs : QueueState) (ts seq : Nat) (ev : BookEvent) :
    QueueState :=
  let ct := { qs.currentTop with ts := ts, seqno := seq }
  let qs := { qs with currentTop := ct }
  let step := applyBookEvent cfg oracle fuel qs ts seq ev
  let qs := step.1
  if step.2 then
    let newTop := updateTopLevels qs.bidBook qs.askBook qs.currentTop
    { qs with currentTop := newTop,
              sim := processBookTop cfg oracle fuel qs.sim newTop }
  else qs

/-- The initial local state of `runQueueSimulation` (lines 558-576):
empty books and order map, `currentTop` with bid 0 / ask `INT64_MAX`
(second/third levels, default-initialised in the source, are rendered
zero-filled). -/
def initQueueState : QueueState :=
  { bidBook := [], askBook := [], orderMap := [],
    currentTop := { zeroBookTop with
      top_level := { bid_nanos := 0, ask_nanos := INT64_MAX,
                     bid_qty := 0, ask_qty := 0 } },
    sim := initSimState }

/-- The P&L update block of `processFill` in the older tops/fills-only
variant at `src/fill_simulator.cpp` (lines 245-262): the notional is
`(fill_price * qty) / 1000 * 1000`, i.e. the bottom three nanos are
discarded.  Returns the new `(position_, cashFlow_)`. -/
def fillPnlRounded (position cashFlow : Int) (fillPrice : Int) (fillQty : Nat)
    (isBid : Bool) : Int × Int :=
  if isBid then
    let cost := cppDiv (fillPrice * (fillQty : Int)) 1000
    (position + (fillQty : Int), cashFlow - cost * 1000)
  else
    let proceeds := cppDiv (fillPrice * (fillQty : Int)) 1000
    (position - (fillQty : Int), cashFlow + proceeds * 1000)

/-- Quantities representable in `uint32_t`: every action of every strategy
response satisfies this in the source by the C++ type of
`OrderAction::quantity`. -/
def WFOracle (oracle : Nat → List OrderAction) : Prop :=
  ∀ n a, a ∈ oracle n → a.quantity < U32

/-- All actions of one response list have `uint32_t`-representable
quantities. -/
def WFActs (l : List OrderAction) : Prop := ∀ a ∈ l, a.quantity < U32

/-- The invariant of the active-order map: every live order has
`filled_qty = 0` (the matcher always fills the whole remaining quantity
and erases), a `uint32_t`-representable quantity, and its map key as id. -/
def InvOrders (m : List (Nat × OrderInfo)) : Prop :=
  ∀ p ∈ m, p.2.filledQuantity = 0 ∧ p.2.quantity < U32 ∧ p.2.orderId = p.1

/-- Precondition of each `Call` under which `InvOrders` is preserved:
fills always cover the remaining quantity of the target order, and action
quantities fit `uint32_t`.  Every call site of the source satisfies it. -/
def CallOK (s : SimState) : Call → Prop
  | Call.fill orderId _ fillQty _ _ =>
    ∀ o, aFind s.activeOrders orderId = some o → fillQty < U32 ∧ o.quantity ≤ fillQty
  | Call.action a _ => a.quantity < U32
  | Call.actions l _ _ => WFActs l

/-- Null strategy oracle (a strategy returning no actions). -/
def nullOracle : Nat → List OrderAction := fun _ => []

/-- Zero-latency configuration, used in concrete witnesses. -/
def wCfg : Config := { mdLatencyNs := 0, exchLatencyNs := 0 }

/-- A valid concrete book top: bid 99, ask 101 at ts 1000000. -/
def wTop : BookTop :=
  { zeroBookTop with
    ts := 1000000,
    top_level := { bid_nanos := 99, ask_nanos := 101, bid_qty := 5, ask_qty := 5 } }

/-- A simulator state holding `wTop` as the last book top. -/
def wState : SimState :=
  { initSimState with market := { initSimState.market with lastBookTop := wTop } }

/-- A crossing post-only buy ADD (price 101 ≥ ask 101). -/
def wAddPO : OrderAction :=
  { type := ActionType.ADD, orderId := 1, symbolId := 7, sent_ts := 1000000,
    md_ts := 1000000, price := 101, quantity := 10, isBid := true,
    isPostOnly := true }

/-- A non-crossing buy ADD at price 100 < ask 101. -/
def wAddRest : OrderAction := { wAddPO with price := 100, isPostOnly := false }

/-- An oracle whose first response is the single resting ADD `wAddRest`. -/
def wRestOracle : Nat → List OrderAction :=
  fun n => if n = 0 then [wAddRest] else []

/-- The active order left by `wAddRest` after `wTop` is processed. -/
def wRestOrder : OrderInfo :=
  { orderId := 1, symbolId := 7, sent_ts := 1000000, md_ts := 1000000,
    price := 100, quantity := 10, filledQuantity := 0, isBid := true,
    isPostOnly := false }

/-- `wState` with `wRestOrder` resting in the active set. -/
def wStateWithOrder : SimState :=
  { wState with activeOrders := [(1, wRestOrder)] }

/-- A latency configuration with a 10 ns exchange leg, for the latency
stamping counterexample. -/
def c4cfg : Config := { mdLatencyNs := 0, exchLatencyNs := 10 }

/-- An action whose strategy-supplied `sent_ts` is nonzero (5) and differs
from the delayed market-data timestamp it responds to. -/
def c4act : OrderAction :=
  { type := ActionType.ADD, orderId := 2, symbolId := 7, sent_ts := 5,
    md_ts := 0, price := 100, quantity := 1, isBid := true, isPostOnly := false }

/-- The same action with `sent_ts = 0` (strategy left it unset). -/
def c4actZero : OrderAction := { c4act with sent_ts := 0 }

/-- A top with ask exactly at `MAX_REASONABLE_PRICE` (and bid 99). -/
def c3AcceptTop : BookTop :=
  { zeroBookTop with
    ts := 1000,
    top_level := { bid_nanos := 99, ask_nanos := 10000000000000,
                   bid_qty := 1, ask_qty := 1 } }

/-- The same top with ask one nano above `MAX_REASONABLE_PRICE`. -/
def c3RejectTop : BookTop :=
  { c3AcceptTop with
    top_level := { c3AcceptTop.top_level with ask_nanos := 10000000000001 } }

/-- A top with `bid = 10^13 = MAX_REASONABLE` and the greatest ask that
does not itself exceed `MAX_REASONABLE` (so the only candidate "valid"
ask for this bid). -/
def c3BidMaxTop : BookTop :=
  { zeroBookTop with
    ts := 1000,
    top_level := { bid_nanos := 10000000000000, ask_nanos := 10000000000000,
                   bid_qty := 1, ask_qty := 1 } }

/-- The same `bid = 10^13` top with the smallest ask that exceeds the bid. -/
def c3BidMaxAskOverTop : BookTop :=
  { c3BidMaxTop with
    top_level := { c3BidMaxTop.top_level with ask_nanos := 10000000000001 } }

/-- Queue scenario, step 1: a lone bid at 99 (synthesized top invalid:
no ask). -/
def c6q1 : QueueState :=
  runQueueStep wCfg nullOracle 4 initQueueState 1000 1 (BookEvent.addOrder 99 1 5 true)

/-- Queue scenario, step 2: an ask at 101 arrives at ts 2000; the
synthesized top (99/101) is valid and is delivered. -/
def c6q2 : QueueState :=
  runQueueStep wCfg nullOracle 4 c6q1 2000 2 (BookEvent.addOrder 101 2 5 false)

/-- Queue scenario, step 3: a better bid at 100 arrives at ts 50000, only
48000 ns after the previously delivered top. -/
def c6q3 : QueueState :=
  runQueueStep wCfg nullOracle 4 c6q2 50000 3 (BookEvent.addOrder 100 3 5 true)

/-- A queue state with a single resting bid order (id 1, qty 5, price 99). -/
def c9qs : QueueState :=
  { initQueueState with
    bidBook := [(99, (5, [{ order_id := 1, qty := 5, timestamp := 10 }]))],
    orderMap := [(1, { price := 99, is_bid := true })] }

/-! ## Library lemmas about the association-list maps -/

theorem aFind_aErase_self (m : List (Nat × OrderInfo)) (k : Nat) :
    aFind (aErase m k) k = none := by
  unfold aFind aErase
  have h : List.find? (fun p => p.1 == k) (List.filter (fun p => !(p.1 == k)) m) = none := by
    rw [List.find?_eq_none]
    intro x hx
    have h2 := (List.mem_filter.mp hx).2
    simp at h2 ⊢
    exact h2
  rw [h]
  rfl

theorem aFind_aInsert_self (m : List (Nat × OrderInfo)) (k : Nat) (v : OrderInfo) :
    aFind (aInsert m k v) k = some v := by
  simp [aFind, aInsert, List.find?]

theorem mem_aInsert (m : List (Nat × OrderInfo)) (k : Nat) (v : OrderInfo)
    (p : Nat × OrderInfo) (hp : p ∈ aInsert m k v) : p = (k, v) ∨ p ∈ m := by
  rcases List.mem_cons.mp hp with h | h
  · exact Or.inl h
  · exact Or.inr (List.mem_filter.mp h).1

theorem mem_aErase (m : List (Nat × OrderInfo)) (k : Nat)
    (p : Nat × OrderInfo) (hp : p ∈ aErase m k) : p ∈ m :=
  (List.mem_filter.mp hp).1

theorem aFind_mem (m : List (Nat × OrderInfo)) (k : Nat) (o : OrderInfo)
    (h : aFind m k = some o) : (k, o) ∈ m := by
  unfold aFind at h
  cases hf : List.find? (fun p => p.1 == k) m with
  | none => rw [hf] at h; cases h
  | some p =>
    rw [hf] at h
    have hk : p.1 = k := by simpa using List.find?_some hf
    have hm : p ∈ m := List.mem_of_find?_eq_some hf
    have : p.2 = o := by simpa using h
    rw [← hk, ← this]
    exact hm

theorem omFind_omSet_self (m : List (Nat × OrderRef)) (k : Nat) (v : OrderRef) :
    omFind (omSet m k v) k = some v := by
  simp [omFind, omSet, List.find?]

theorem sideFind_sideSet_self (b : BookSide) (p : Int) (l : Level) :
    sideFind (sideSet b p l) p = some l := by
  simp [sideFind, sideSet, List.find?]

/-! ## Claim theorems -/

/-- C1: `wouldOrderBeFilled` returns false whenever `price ≤ 0` or
`qty = 0`; for a bid with positive price and nonzero quantity it returns
true iff the stored best ask is valid (positive and not the `INT64_MAX`
sentinel) and `price ≥ best_ask`; for an ask, true iff the stored best bid
is valid and `price ≤ best_bid`.  The embedding is a pure function of the
market state, so the call mutates no simulator state. -/
theorem claim_C1 (ms : MarketState) (isBid : Bool) (price : Int) (quantity : Nat) :
    wouldOrderBeFilled ms isBid price quantity = true ↔
      (0 < price ∧ quantity ≠ 0 ∧
        (if isBid then
          0 < ms.lastBookTop.top_level.ask_nanos ∧
          ms.lastBookTop.top_level.ask_nanos ≠ INT64_MAX ∧
          ms.lastBookTop.top_level.ask_nanos ≤ price
        else
          0 < ms.lastBookTop.top_level.bid_nanos ∧
          ms.lastBookTop.top_level.bid_nanos ≠ INT64_MAX ∧
          price ≤ ms.lastBookTop.top_level.bid_nanos)) := by
  cases isBid <;> simp [wouldOrderBeFilled] <;> tauto

/-- C2: processing a crossing post-only ADD erases the order from the
active set, writes the `event_type=1` add record followed by the
`event_type=2` cancel record, and leaves position, cash flow and
`orders_filled` unchanged. -/
theorem claim_C2 (cfg : Config) (oracle : Nat → List OrderAction) (fuel : Nat)
    (s : SimState) (a : OrderAction) (bt : BookTop)
    (hADD : a.type = ActionType.ADD) (hPO : a.isPostOnly = true)
    (hX : wouldOrderBeFilled s.market a.isBid a.price a.quantity = true) :
    aFind (exec cfg oracle (fuel+1) (Call.action a bt) s).activeOrders a.orderId = none ∧
    (exec cfg oracle (fuel+1) (Call.action a bt) s).records =
      s.records ++ [addRecordOf a, postOnlyCancelRecordOf a] ∧
    (addRecordOf a).event_type = 1 ∧ (postOnlyCancelRecordOf a).event_type = 2 ∧
    (exec cfg oracle (fuel+1) (Call.action a bt) s).position = s.position ∧
    (exec cfg oracle (fuel+1) (Call.action a bt) s).cashFlow = s.cashFlow ∧
    (exec cfg oracle (fuel+1) (Call.action a bt) s).totalOrdersFilled = s.totalOrdersFilled := by
  simp [exec, hADD, hPO, hX, bumpExchToNotif, aFind_aErase_self, addRecordOf,
    postOnlyCancelRecordOf]

/-- Witness for C2 at a concrete crossing post-only ADD. -/
theorem claim_C2_witness :
    (exec wCfg nullOracle (0+1) (Call.action wAddPO wTop) wState).records =
      wState.records ++ [addRecordOf wAddPO, postOnlyCancelRecordOf wAddPO] ∧
    (exec wCfg nullOracle (0+1) (Call.action wAddPO wTop) wState).position = wState.position :=
  have h := claim_C2 wCfg nullOracle 0 wState wAddPO wTop rfl rfl (by decide)
  ⟨h.2.1, h.2.2.2.2.1⟩

/-- C3 counterexample: the claim's boundary example "a top with
`bid = 10^13` (and valid ask) is accepted" fails: a top with
`bid = 10^13 = MAX_REASONABLE` is dropped both with the greatest
not-unreasonable ask (`10^13`, which does not exceed the bid) and with
the smallest ask exceeding the bid (`10^13 + 1`, which is unreasonable),
and `processBookTop` leaves the state untouched on it.  (The amended
theorem shows no ask at all makes such a top valid.) -/
theorem claim_C3_counterexample :
    bookTopValid c3BidMaxTop = false ∧
    bookTopValid c3BidMaxAskOverTop = false ∧
    processBookTop wCfg nullOracle 1 initSimState c3BidMaxTop = initSimState ∧
    processBookTop wCfg nullOracle 1 initSimState c3BidMaxAskOverTop = initSimState := by
  decide

/-- C3 (amended): a `BookTop` with non-positive bid or ask, bid ≥ ask, or
either price above `MAX_REASONABLE = 10^13` is dropped by
`processBookTop` with no state mutation and no record written.  The
boundary example holds on the ask side: a top with `ask = 10^13` (and a
valid bid) is accepted and delivered, while `ask = 10^13 + 1` is dropped;
on the bid side every top with `bid = 10^13` is dropped, since its ask
would have to exceed `MAX_REASONABLE`. -/
theorem claim_C3_amended :
    (∀ (cfg : Config) (oracle : Nat → List OrderAction) (fuel : Nat)
        (s : SimState) (bt : BookTop), bookTopValid bt = false →
        processBookTop cfg oracle fuel s bt = s) ∧
    bookTopValid c3AcceptTop = true ∧
    (processBookTop wCfg nullOracle 1 initSimState c3AcceptTop).latMdEvents = 1 ∧
    bookTopValid c3RejectTop = false ∧
    processBookTop wCfg nullOracle 1 initSimState c3RejectTop = initSimState ∧
    (∀ bt : BookTop,
      bookTopValid { bt with top_level := { bt.top_level with bid_nanos := 10000000000000 } } = false) := by
  refine ⟨?_, by decide, by decide, by decide, by decide, ?_⟩
  · intro cfg oracle fuel s bt hInv
    simp [processBookTop, hInv]
  · intro bt
    simp [bookTopValid, MAX_REASONABLE_PRICE]

/-- Witness for C3 at the concrete invalid top `c3RejectTop`. -/
theorem claim_C3_witness :
    processBookTop wCfg nullOracle 1 initSimState c3RejectTop = initSimState :=
  claim_C3_amended.1 wCfg nullOracle 1 initSimState c3RejectTop (by decide)

/-- C4 counterexample: an action returned with a nonzero strategy-supplied
`sent_ts` (here 5) in response to a delayed MD timestamp 1000 under a
10 ns exchange latency is stamped `md_ts = 1010`, not
`sent_ts + exch_latency_ns = 15`. -/
theorem claim_C4_counterexample :
    (delayedActionOf c4cfg 1000 c4act).sent_ts = 5 ∧
    (delayedActionOf c4cfg 1000 c4act).md_ts = 1010 ∧
    u64add c4act.sent_ts c4cfg.exchLatencyNs = 15 ∧
    (delayedActionOf c4cfg 1000 c4act).md_ts ≠
      u64add c4act.sent_ts c4cfg.exchLatencyNs := by decide

/-- C4 (amended): for each `OrderAction` returned by a strategy callback
in response to a (delayed) timestamp `tsBase`: `sent_ts` is set to
`tsBase` iff it was zero, `md_ts` is set to `tsBase + exch_latency_ns`
(mod 2^64) regardless of `sent_ts` — so `md_ts = sent_ts + exch_latency`
is guaranteed only when the strategy left `sent_ts` zero — and the
`strategy_to_exchange` accumulator grows by `exch_latency_ns` per action
before the action is processed. -/
theorem claim_C4_amended (cfg : Config) (oracle : Nat → List OrderAction)
    (fuel : Nat) (tsBase : Nat) (a : OrderAction) (rest : List OrderAction)
    (bt : BookTop) (s : SimState) :
    (delayedActionOf cfg tsBase a).sent_ts = (if a.sent_ts = 0 then tsBase else a.sent_ts) ∧
    (delayedActionOf cfg tsBase a).md_ts = u64add tsBase cfg.exchLatencyNs ∧
    (a.sent_ts = 0 →
      (delayedActionOf cfg tsBase a).md_ts =
        u64add (delayedActionOf cfg tsBase a).sent_ts cfg.exchLatencyNs) ∧
    exec cfg oracle (fuel+1) (Call.actions (a :: rest) tsBase bt) s =
      exec cfg oracle fuel (Call.actions rest tsBase bt)
        (exec cfg oracle fuel (Call.action (delayedActionOf cfg tsBase a) bt)
          (bumpStrategyToExchange cfg s)) ∧
    (bumpStrategyToExchange cfg s).latStrategyToExchange =
      u64add s.latStrategyToExchange cfg.exchLatencyNs := by
  refine ⟨?_, ?_, ?_, rfl, rfl⟩
  · unfold delayedActionOf
    split_ifs <;> rfl
  · rfl
  · intro h
    simp [delayedActionOf, h, applyExchangeLatency]

/-- Witness for C4 at a concrete zero-`sent_ts` action. -/
theorem claim_C4_witness :
    (delayedActionOf wCfg 1000 c4actZero).md_ts =
      u64add (delayedActionOf wCfg 1000 c4actZero).sent_ts wCfg.exchLatencyNs :=
  (claim_C4_amended wCfg nullOracle 0 1000 c4actZero [] zeroBookTop initSimState).2.2.1 rfl

/-- C6 counterexample: in the concrete queue run `c6q1 → c6q2 → c6q3`,
the third book event (a better bid 48000 ns after the previously
delivered top) synthesizes a VALID book top, yet the simulator state is
completely unchanged — the 100_000 ns coalescer inside `processBookTop`
dropped it, so synthesized tops are not "always delivered". -/
theorem claim_C6_counterexample :
    bookTopValid c6q3.currentTop = true ∧
    c6q3.currentTop.top_level.bid_nanos = 100 ∧
    c6q2.currentTop.top_level.bid_nanos = 99 ∧
    c6q2.sim.latMdEvents = 1 ∧
    c6q3.sim = c6q2.sim := by decide

/-- C6 (amended): every `BookTop` synthesized after a top-changing book
event is handed to `processBookTop`, and is therefore subject to BOTH the
validity filter and the 100_000 ns minimum inter-update coalescer: an
update closer than `MIN_PROCESSING_INTERVAL` to the previously accepted
one is dropped even in queue mode. -/
theorem claim_C6_amended :
    (∀ (cfg : Config) (oracle : Nat → List OrderAction) (fuel : Nat)
        (qs : QueueState) (ts seq : Nat) (ev : BookEvent),
      runQueueStep cfg oracle fuel qs ts seq ev =
        (let qs1 : QueueState := { qs with currentTop := { qs.currentTop with ts := ts, seqno := seq } }
         let step := applyBookEvent cfg oracle fuel qs1 ts seq ev
         if step.2 then
           { step.1 with
             currentTop := updateTopLevels step.1.bidBook step.1.askBook step.1.currentTop,
             sim := processBookTop cfg oracle fuel step.1.sim
                      (updateTopLevels step.1.bidBook step.1.askBook step.1.currentTop) }
         else step.1)) ∧
    (∀ (cfg : Config) (oracle : Nat → List OrderAction) (fuel : Nat)
        (s : SimState) (bt : BookTop), 0 < s.lastProcessedTime →
      u64sub bt.ts s.lastProcessedTime < MIN_PROCESSING_INTERVAL →
      processBookTop cfg oracle fuel s bt = s) := by
  refine ⟨fun _ _ _ _ _ _ _ => rfl, ?_⟩
  intro cfg oracle fuel s bt h1 h2
  unfold processBookTop
  rw [if_pos ⟨h1, h2⟩]

/-- Witness for C6: the valid synthesized top of `c6q3` is dropped when
handed to `processBookTop` on the post-`c6q2` simulator state. -/
theorem claim_C6_witness :
    processBookTop wCfg nullOracle 4 c6q2.sim c6q3.currentTop = c6q2.sim :=
  claim_C6_amended.2 wCfg nullOracle 4 c6q2.sim c6q3.currentTop (by decide) (by decide)

/-- C5 counterexample: the tops/fills-only variant at
`src/fill_simulator.cpp` changes `cashFlow_` for a bid fill at price 1001,
quantity 1 by -1000, not by the exact notional -(1001·1): the bottom
three nanos are discarded. -/
theorem claim_C5_counterexample :
    (fillPnlRounded 0 0 1001 1 true).2 = -1000 ∧
    ((-1000 : Int) ≠ -(1001 * (1 : Int))) := by decide

/-- C5 (amended): in the latest (queue-capable) variant, a processed fill
with an existing order, valid price and nonzero quantity changes position
by +qty for a bid and -qty for an ask, and cash flow by exactly the
unrounded notional ∓(fill_price·fill_qty); in the older variant at
`src/fill_simulator.cpp` the cash-flow change is the notional with its
bottom three nanos discarded, ∓(notional - notional % 1000). -/
theorem claim_C5_amended (cfg : Config) (s : SimState) (orderId : Nat)
    (fillPrice : Int) (fillQty : Nat) (isBid : Bool) (fnt0 : Nat) (order : OrderInfo)
    (hFound : aFind s.activeOrders orderId = some order)
    (hP : 0 < fillPrice) (hPmax : fillPrice ≠ INT64_MAX) (hQ : fillQty ≠ 0) :
    (∃ s1 fnt, processFillCore cfg s orderId fillPrice fillQty isBid fnt0 = some (s1, fnt) ∧
      s1.position = s.position + (if isBid then (fillQty : Int) else -(fillQty : Int)) ∧
      s1.cashFlow = s.cashFlow +
        (if isBid then -(fillPrice * (fillQty : Int)) else fillPrice * (fillQty : Int))) ∧
    (∀ (position cashFlow : Int),
      (fillPnlRounded position cashFlow fillPrice fillQty isBid).1 =
        position + (if isBid then (fillQty : Int) else -(fillQty : Int)) ∧
      (fillPnlRounded position cashFlow fillPrice fillQty isBid).2 =
        cashFlow +
          (if isBid then -(fillPrice * (fillQty : Int) - (fillPrice * (fillQty : Int)) % 1000)
           else (fillPrice * (fillQty : Int) - (fillPrice * (fillQty : Int)) % 1000))) := by
  constructor
  · have hcond : ¬(fillPrice ≤ 0 ∨ fillPrice = INT64_MAX ∨ fillQty = 0) := by
      push_neg
      exact ⟨by omega, hPmax, hQ⟩
    simp only [processFillCore, hFound, if_neg hcond]
    refine ⟨_, _, rfl, ?_, ?_⟩ <;>
      split_ifs <;> simp [bumpExchToNotif, sub_eq_add_neg]
  · intro position cashFlow
    have hn : (0 : Int) ≤ fillPrice * (fillQty : Int) :=
      mul_nonneg (le_of_lt hP) (by positivity)
    have h1 : cppDiv (fillPrice * (fillQty : Int)) 1000 = (fillPrice * (fillQty : Int)) / 1000 :=
      Int.tdiv_eq_ediv hn (by norm_num)
    have h2 : (fillPrice * (fillQty : Int)) / 1000 * 1000 + (fillPrice * (fillQty : Int)) % 1000 =
        fillPrice * (fillQty : Int) := Int.ediv_add_emod' _ _
    unfold fillPnlRounded
    split_ifs <;> refine ⟨by ring, ?_⟩ <;> rw [h1] <;> simp only [] <;> linarith [h2]

/-- Witness for C5: concrete rounded-variant cash-flow change for a bid
fill at price 1001, quantity 2. -/
theorem claim_C5_witness :
    (fillPnlRounded 5 7 1001 2 true).2 =
      7 + (-(1001 * ((2 : Nat) : Int) - (1001 * ((2 : Nat) : Int)) % 1000)) :=
  ((claim_C5_amended wCfg wStateWithOrder 1 1001 2 true 0 wRestOrder (by decide)
      (by decide) (by decide) (by decide)).2 5 7).2

theorem mem_aErase_ne (m : List (Nat × OrderInfo)) (k : Nat)
    (p : Nat × OrderInfo) (hp : p ∈ aErase m k) : p.1 ≠ k := by
  have := (List.mem_filter.mp hp).2
  simpa using this

theorem processFillCore_records (cfg : Config) (s : SimState) (orderId : Nat)
    (fillPrice : Int) (fillQty : Nat) (isBid : Bool) (fnt0 : Nat)
    (s1 : SimState) (fnt : Nat)
    (h : processFillCore cfg s orderId fillPrice fillQty isBid fnt0 = some (s1, fnt)) :
    ∃ t, s1.records = s.records ++ t := by
  unfold processFillCore at h
  cases hf : aFind s.activeOrders orderId with
  | none => rw [hf] at h; exact Option.noConfusion h
  | some order =>
    rw [hf] at h
    simp only [] at h
    split_ifs at h <;>
      first
        | exact Option.noConfusion h
        | (injection h with h1; injection h1 with h1a h1b; subst h1a; exact ⟨_, rfl⟩)

theorem exec_records_mono (cfg : Config) (oracle : Nat → List OrderAction) :
    ∀ (fuel : Nat) (call : Call) (s : SimState),
      ∃ t, (exec cfg oracle fuel call s).records = s.records ++ t := by
  intro fuel
  induction fuel with
  | zero => intro call s; exact ⟨[], by simp [exec]⟩
  | succ n ih =>
    intro call s
    have step : ∀ (C : Call) (S : SimState) (L : List OrderRecord),
        S.records = s.records ++ L →
        ∃ t, (exec cfg oracle n C S).records = s.records ++ t := by
      intro C S L hSL
      obtain ⟨t, ht⟩ := ih C S
      exact ⟨L ++ t, by rw [ht, hSL, List.append_assoc]⟩
    cases call with
    | fill orderId fillPrice fillQty isBid fnt0 =>
      cases hc : processFillCore cfg s orderId fillPrice fillQty isBid fnt0 with
      | none => exact ⟨[], by simp [exec, hc]⟩
      | some pr =>
        obtain ⟨s1, fnt⟩ := pr
        obtain ⟨t1, ht1⟩ :=
          processFillCore_records cfg s orderId fillPrice fillQty isBid fnt0 s1 fnt hc
        simp only [exec, hc]
        exact step _ _ t1 ht1
    | action a bt =>
      by_cases hW : wouldOrderBeFilled s.market a.isBid a.price a.quantity = true
      all_goals cases htype : a.type
      case pos.ADD =>
        by_cases hPO : a.isPostOnly = true <;>
          simp [exec, htype, hW, hPO, bumpExchToNotif] <;>
          first
            | exact ⟨_, rfl⟩
            | exact step _ _ _ rfl
      case neg.ADD =>
        simp [exec, htype, hW, bumpExchToNotif] <;>
          first
            | exact ⟨_, rfl⟩
            | exact step _ _ _ rfl
      case pos.CANCEL =>
        cases hf : aFind s.activeOrders a.orderId with
        | none => exact ⟨[], by simp [exec, htype, hf, bumpExchToNotif]⟩
        | some order =>
          simp [exec, htype, hf, bumpExchToNotif] <;>
            first
              | exact ⟨_, rfl⟩
              | exact step _ _ _ rfl
      case neg.CANCEL =>
        cases hf : aFind s.activeOrders a.orderId with
        | none => exact ⟨[], by simp [exec, htype, hf, bumpExchToNotif]⟩
        | some order =>
          simp [exec, htype, hf, bumpExchToNotif] <;>
            first
              | exact ⟨_, rfl⟩
              | exact step _ _ _ rfl
      case pos.REPLACE =>
        cases hf : aFind s.activeOrders a.orderId with
        | none => exact ⟨[], by simp [exec, htype, hf, hW, bumpExchToNotif]⟩
        | some order =>
          by_cases hW2 : wouldOrderBeFilled s.market order.isBid a.price a.quantity = true <;>
            by_cases hPO : order.isPostOnly = true <;>
            simp [exec, htype, hf, hW, hW2, hPO, bumpExchToNotif] <;>
            first
              | exact ⟨_, rfl⟩
              | exact step _ _ _ rfl
      case neg.REPLACE =>
        cases hf : aFind s.activeOrders a.orderId with
        | none => exact ⟨[], by simp [exec, htype, hf, hW, bumpExchToNotif]⟩
        | some order =>
          by_cases hW2 : wouldOrderBeFilled s.market order.isBid a.price a.quantity = true <;>
            by_cases hPO : order.isPostOnly = true <;>
            simp [exec, htype, hf, hW, hW2, hPO, bumpExchToNotif] <;>
            first
              | exact ⟨_, rfl⟩
              | exact step _ _ _ rfl
    | actions l tsBase bt =>
      cases l with
      | nil => exact ⟨[], by simp [exec]⟩
      | cons a rest =>
        simp only [exec]
        obtain ⟨t1, ht1⟩ := ih (Call.action (delayedActionOf cfg tsBase a) bt)
          (bumpStrategyToExchange cfg s)
        obtain ⟨t2, ht2⟩ := ih (Call.actions rest tsBase bt)
          (exec cfg oracle n (Call.action (delayedActionOf cfg tsBase a) bt)
            (bumpStrategyToExchange cfg s))
        refine ⟨t1 ++ t2, ?_⟩
        rw [ht2, ht1]
        simp [bumpStrategyToExchange, List.append_assoc]



theorem InvOrders_aInsert (m : List (Nat × OrderInfo)) (hm : InvOrders m)
    (k : Nat) (v : OrderInfo) (h1 : v.filledQuantity = 0) (h2 : v.quantity < U32)
    (h3 : v.orderId = k) : InvOrders (aInsert m k v) := by
  intro p hp
  rcases mem_aInsert m k v p hp with heq | hmem
  · cases heq; exact ⟨h1, h2, h3⟩
  · exact hm p hmem

theorem InvOrders_aErase (m : List (Nat × OrderInfo)) (hm : InvOrders m)
    (k : Nat) : InvOrders (aErase m k) := by
  intro p hp
  exact hm p (mem_aErase m k p hp)

theorem InvOrders_aErase_aInsert (m : List (Nat × OrderInfo)) (hm : InvOrders m)
    (k : Nat) (v : OrderInfo) : InvOrders (aErase (aInsert m k v) k) := by
  intro p hp
  have hne := mem_aErase_ne _ _ _ hp
  rcases mem_aInsert m k v p (mem_aErase _ _ _ hp) with heq | hmem
  · cases heq; simp at hne
  · exact hm p hmem

theorem delayedActionOf_quantity (cfg : Config) (tsBase : Nat) (a : OrderAction) :
    (delayedActionOf cfg tsBase a).quantity = a.quantity := by
  unfold delayedActionOf
  split_ifs <;> rfl

theorem processFillCore_inv (cfg : Config) (s : SimState) (orderId : Nat)
    (fillPrice : Int) (fillQty : Nat) (isBid : Bool) (fnt0 : Nat)
    (s1 : SimState) (fnt : Nat)
    (hInv : InvOrders s.activeOrders)
    (hOK : ∀ o, aFind s.activeOrders orderId = some o → fillQty < U32 ∧ o.quantity ≤ fillQty)
    (h : processFillCore cfg s orderId fillPrice fillQty isBid fnt0 = some (s1, fnt)) :
    InvOrders s1.activeOrders := by
  unfold processFillCore at h
  cases hf : aFind s.activeOrders orderId with
  | none => rw [hf] at h; exact Option.noConfusion h
  | some order =>
    rw [hf] at h
    simp only [] at h
    obtain ⟨hq32, hqle⟩ := hOK order hf
    have hOrdProps := hInv (orderId, order) (aFind_mem _ _ _ hf)
    have hnew : u32add order.filledQuantity fillQty = fillQty := by
      rw [hOrdProps.1]
      have hq : fillQty < 4294967296 := hq32
      simp only [u32add, U32]
      omega
    rw [hnew] at h
    split_ifs at h <;>
      first
        | exact Option.noConfusion h
        | omega
        | (injection h with h1; injection h1 with h1a h1b; subst h1a;
           exact InvOrders_aErase_aInsert _ hInv _ _)

theorem exec_inv (cfg : Config) (oracle : Nat → List OrderAction)
    (hOr : WFOracle oracle) :
    ∀ (fuel : Nat) (call : Call) (s : SimState),
      InvOrders s.activeOrders → CallOK s call →
      InvOrders (exec cfg oracle fuel call s).activeOrders := by
  intro fuel
  induction fuel with
  | zero => intro call s h _; simpa [exec] using h
  | succ n ih =>
    intro call s hInv hOK
    cases call with
    | fill orderId fillPrice fillQty isBid fnt0 =>
      cases hc : processFillCore cfg s orderId fillPrice fillQty isBid fnt0 with
      | none => simpa [exec, hc] using hInv
      | some pr =>
        obtain ⟨s1, fnt⟩ := pr
        have h1 := processFillCore_inv cfg s orderId fillPrice fillQty isBid fnt0 s1 fnt hInv hOK hc
        simp only [exec, hc]
        exact ih _ _ h1 (hOr _)
    | action a bt =>
      by_cases hW : wouldOrderBeFilled s.market a.isBid a.price a.quantity = true
      all_goals cases htype : a.type
      case pos.ADD =>
        by_cases hPO : a.isPostOnly = true
        · simp [exec, htype, hW, hPO, bumpExchToNotif]
          exact InvOrders_aErase_aInsert _ hInv _ _
        · simp [exec, htype, hW, hPO, bumpExchToNotif]
          apply ih
          · exact InvOrders_aInsert _ hInv _ _ rfl hOK rfl
          · intro o ho
            rw [aFind_aInsert_self] at ho
            injection ho with ho1
            subst ho1
            exact ⟨hOK, Nat.le_refl _⟩
      case neg.ADD =>
        simp [exec, htype, hW, bumpExchToNotif]
        exact InvOrders_aInsert _ hInv _ _ rfl hOK rfl
      case pos.CANCEL =>
        cases hf : aFind s.activeOrders a.orderId with
        | none => simpa [exec, htype, hf, bumpExchToNotif] using hInv
        | some order =>
          simp [exec, htype, hf, bumpExchToNotif]
          exact InvOrders_aErase _ hInv _
      case neg.CANCEL =>
        cases hf : aFind s.activeOrders a.orderId with
        | none => simpa [exec, htype, hf, bumpExchToNotif] using hInv
        | some order =>
          simp [exec, htype, hf, bumpExchToNotif]
          exact InvOrders_aErase _ hInv _
      case pos.REPLACE =>
        cases hf : aFind s.activeOrders a.orderId with
        | none => simpa [exec, htype, hf, hW, bumpExchToNotif] using hInv
        | some order =>
          have hOrd := hInv (a.orderId, order) (aFind_mem _ _ _ hf)
          by_cases hW2 : wouldOrderBeFilled s.market order.isBid a.price a.quantity = true
          · by_cases hPO : order.isPostOnly = true
            · simp [exec, htype, hf, hW, hW2, hPO, bumpExchToNotif]
              exact InvOrders_aErase_aInsert _ hInv _ _
            · simp [exec, htype, hf, hW, hW2, hPO, bumpExchToNotif]
              apply ih
              · exact InvOrders_aInsert _ hInv _ _ hOrd.1 hOK hOrd.2.2
              · intro o ho
                rw [aFind_aInsert_self] at ho
                injection ho with ho1
                subst ho1
                exact ⟨hOK, Nat.le_refl _⟩
          · simp [exec, htype, hf, hW, hW2, bumpExchToNotif]
            exact InvOrders_aInsert _ hInv _ _ hOrd.1 hOK hOrd.2.2
      case neg.REPLACE =>
        cases hf : aFind s.activeOrders a.orderId with
        | none => simpa [exec, htype, hf, hW, bumpExchToNotif] using hInv
        | some order =>
          have hOrd := hInv (a.orderId, order) (aFind_mem _ _ _ hf)
          by_cases hW2 : wouldOrderBeFilled s.market order.isBid a.price a.quantity = true
          · by_cases hPO : order.isPostOnly = true
            · simp [exec, htype, hf, hW, hW2, hPO, bumpExchToNotif]
              exact InvOrders_aErase_aInsert _ hInv _ _
            · simp [exec, htype, hf, hW, hW2, hPO, bumpExchToNotif]
              apply ih
              · exact InvOrders_aInsert _ hInv _ _ hOrd.1 hOK hOrd.2.2
              · intro o ho
                rw [aFind_aInsert_self] at ho
                injection ho with ho1
                subst ho1
                exact ⟨hOK, Nat.le_refl _⟩
          · simp [exec, htype, hf, hW, hW2, bumpExchToNotif]
            exact InvOrders_aInsert _ hInv _ _ hOrd.1 hOK hOrd.2.2
    | actions l tsBase bt =>
      cases l with
      | nil => simpa [exec] using hInv
      | cons a rest =>
        simp only [exec]
        have h1 : InvOrders (exec cfg oracle n
            (Call.action (delayedActionOf cfg tsBase a) bt)
            (bumpStrategyToExchange cfg s)).activeOrders := by
          apply ih
          · exact hInv
          · show (delayedActionOf cfg tsBase a).quantity < U32
            rw [delayedActionOf_quantity]
            exact hOK a (List.mem_cons_self _ _)
        exact ih _ _ h1 (fun b hb => hOK b (List.mem_cons_of_mem _ hb))



theorem reevalLoop_inv (cfg : Config) (oracle : Nat → List OrderAction)
    (hOr : WFOracle oracle) (fuel : Nat) (bt : BookTop) :
    ∀ (keys : List Nat) (s : SimState), InvOrders s.activeOrders →
      InvOrders (reevalLoop cfg oracle fuel bt keys s).activeOrders := by
  intro keys
  induction keys with
  | nil => intro s h; simpa [reevalLoop] using h
  | cons k rest ih =>
    intro s hInv
    simp only [reevalLoop]
    cases hf : aFind s.activeOrders k with
    | none => exact ih s hInv
    | some order =>
      have hOrd := hInv (k, order) (aFind_mem _ _ _ hf)
      have hq : order.quantity < 4294967296 := hOrd.2.1
      have hrem : u32sub order.quantity order.filledQuantity = order.quantity := by
        rw [hOrd.1]
        simp only [u32sub, U32]
        omega
      have hfill : ∀ fp : Int, InvOrders (reevalLoop cfg oracle fuel bt rest
          (exec cfg oracle fuel
            (Call.fill order.orderId fp (u32sub order.quantity order.filledQuantity)
              order.isBid (applyExchangeLatency cfg order.md_ts)) s)).activeOrders := by
        intro fp
        apply ih
        apply exec_inv cfg oracle hOr
        · exact hInv
        · intro o ho
          rw [hOrd.2.2, hf] at ho
          injection ho with ho1
          subst ho1
          rw [hrem]
          exact ⟨hOrd.2.1, Nat.le_refl _⟩
      simp only []
      split_ifs with hW hBid
      · exact hfill _
      · exact hfill _
      · exact ih s hInv

theorem processBookTop_inv (cfg : Config) (oracle : Nat → List OrderAction)
    (hOr : WFOracle oracle) (fuel : Nat) (s : SimState) (bt : BookTop)
    (hInv : InvOrders s.activeOrders) :
    InvOrders (processBookTop cfg oracle fuel s bt).activeOrders := by
  unfold processBookTop
  split_ifs with h1 h2
  · exact hInv
  · exact hInv
  · apply reevalLoop_inv cfg oracle hOr
    apply exec_inv cfg oracle hOr
    · exact hInv
    · exact hOr _

theorem processBookFill_inv (cfg : Config) (oracle : Nat → List OrderAction)
    (hOr : WFOracle oracle) (fuel : Nat) (s : SimState) (f : BookFillSnapshot)
    (hInv : InvOrders s.activeOrders) :
    InvOrders (processBookFill cfg oracle fuel s f).activeOrders := by
  unfold processBookFill
  apply exec_inv cfg oracle hOr
  · exact hInv
  · exact hOr _

theorem runTrace_inv (cfg : Config) (oracle : Nat → List OrderAction)
    (hOr : WFOracle oracle) (fuel : Nat) :
    ∀ (trace : List InEvent) (s : SimState), InvOrders s.activeOrders →
      InvOrders (runTrace cfg oracle fuel s trace).activeOrders := by
  intro trace
  induction trace with
  | nil => intro s h; simpa [runTrace] using h
  | cons e rest ih =>
    intro s h
    cases e with
    | top bt =>
      simp only [runTrace]
      exact ih _ (processBookTop_inv cfg oracle hOr fuel s bt h)
    | fill f =>
      simp only [runTrace]
      exact ih _ (processBookFill_inv cfg oracle hOr fuel s f h)

/-- C7: at every point of a simulation (any merged tops/fills trace, any
strategy), every order in the active set satisfies
`0 ≤ filled_qty ≤ quantity`; and in any fill-processing step that applies
(order found, valid price, nonzero quantity) the order is removed from the
active set in that same step exactly when its filled quantity reaches its
total quantity — including after a REPLACE, which preserves `filled_qty`
while changing `quantity`, since the dichotomy holds for every state. -/
theorem claim_C7 (cfg : Config) (oracle : Nat → List OrderAction) (fuel : Nat)
    (trace : List InEvent) (hOr : WFOracle oracle) :
    (∀ (k : Nat) (o : OrderInfo),
      aFind (runTrace cfg oracle fuel initSimState trace).activeOrders k = some o →
        o.filledQuantity ≤ o.quantity) ∧
    (∀ (s : SimState) (orderId : Nat) (fillPrice : Int) (fillQty : Nat) (isBid : Bool)
        (fnt0 : Nat) (s1 : SimState) (fnt : Nat) (order : OrderInfo),
      aFind s.activeOrders orderId = some order →
      processFillCore cfg s orderId fillPrice fillQty isBid fnt0 = some (s1, fnt) →
      (aFind s1.activeOrders orderId = none ↔
        order.quantity ≤ u32add order.filledQuantity fillQty)) := by
  constructor
  · intro k o hko
    have hInit : InvOrders initSimState.activeOrders := by
      intro p hp
      simp [initSimState] at hp
    have hInv := runTrace_inv cfg oracle hOr fuel trace initSimState hInit
    have h := hInv (k, o) (aFind_mem _ _ _ hko)
    rw [h.1]
    exact Nat.zero_le _
  · intro s orderId fillPrice fillQty isBid fnt0 s1 fnt order hf h
    unfold processFillCore at h
    rw [hf] at h
    simp only [] at h
    split_ifs at h <;>
      first
        | exact Option.noConfusion h
        | (injection h with h1; injection h1 with h1a h1b; subst h1a;
           simp_all [aFind_aErase_self, aFind_aInsert_self])



theorem omFind_omErase_self (m : List (Nat × OrderRef)) (k : Nat) :
    omFind (omErase m k) k = none := by
  unfold omFind omErase
  have h : List.find? (fun p => p.1 == k) (List.filter (fun p => !(p.1 == k)) m) = none := by
    rw [List.find?_eq_none]
    intro x hx
    have h2 := (List.mem_filter.mp hx).2
    simp at h2 ⊢
    exact h2
  rw [h]
  rfl

/-- C8 (intent, modelled): in queue-mode book reconstruction, a
`replace_order` whose original id is present inserts the new order at the
new price with the side the original order had before its entry was
erased.  (The source reads this side through an iterator invalidated by
the erase — undefined behaviour — so the embedding encodes the intended
pre-erase side; see the doc comment in `applyBookEvent`.) -/
theorem claim_C8_model (cfg : Config) (oracle : Nat → List OrderAction) (fuel : Nat)
    (qs : QueueState) (ts seq : Nat) (price : Int) (origId newId qty : Nat)
    (ref : OrderRef) (hOrig : omFind qs.orderMap origId = some ref) :
    omFind (applyBookEvent cfg oracle fuel qs ts seq
        (BookEvent.replaceOrder price origId newId qty)).1.orderMap newId =
      some { price := price, is_bid := ref.is_bid } := by
  simp only [applyBookEvent, hOrig]
  split_ifs <;> simp [omFind_omSet_self]

/-- Witness for C8 at a concrete replace of the resting order of `c9qs`. -/
theorem claim_C8_witness :
    omFind (applyBookEvent wCfg nullOracle 1 c9qs 500 9
        (BookEvent.replaceOrder 101 1 2 7)).1.orderMap 2 =
      some { price := 101, is_bid := true } :=
  claim_C8_model wCfg nullOracle 1 c9qs 500 9 101 1 2 7
    { price := 99, is_bid := true } (by decide)

/-- C9: in queue-mode reconstruction, `reduce_order` updates the resting
order's quantity and its level total by `uint32_t` wraparound
(subtraction mod 2^32); the order (and level) is removed only when the
resulting quantity is exactly zero, so an over-reduction
(`cxled_qty > qty`) leaves the order in the book with the wrapped-around
quantity `2^32 - (cxled_qty - qty)`. -/
theorem claim_C9 (cfg : Config) (oracle : Nat → List OrderAction) (fuel : Nat)
    (qs : QueueState) (ts seq : Nat) (id cxled : Nat) (ref : OrderRef)
    (level : Level) (entry : BookOrder)
    (hRef : omFind qs.orderMap id = some ref)
    (hLevel : sideFind (if ref.is_bid then qs.bidBook else qs.askBook) ref.price = some level)
    (hEntry : queueFind level.2 id = some entry) :
    (omFind (applyBookEvent cfg oracle fuel qs ts seq
        (BookEvent.reduceOrder id cxled)).1.orderMap id = none ↔
      u32sub entry.qty cxled = 0) ∧
    (u32sub entry.qty cxled ≠ 0 →
      sideFind (if ref.is_bid
          then (applyBookEvent cfg oracle fuel qs ts seq (BookEvent.reduceOrder id cxled)).1.bidBook
          else (applyBookEvent cfg oracle fuel qs ts seq (BookEvent.reduceOrder id cxled)).1.askBook)
        ref.price =
        some (u32sub level.1 cxled,
          queueUpdate level.2 id
            (fun o => { o with qty := u32sub entry.qty cxled, timestamp := ts })) ∧
      omFind (applyBookEvent cfg oracle fuel qs ts seq
        (BookEvent.reduceOrder id cxled)).1.orderMap id = some ref) ∧
    (entry.qty < cxled → cxled < U32 →
      u32sub entry.qty cxled = U32 - (cxled - entry.qty)) := by
  have harith : entry.qty < cxled → cxled < U32 →
      u32sub entry.qty cxled = U32 - (cxled - entry.qty) := by
    intro h1 h2
    have h2' : cxled < 4294967296 := h2
    simp only [u32sub, U32]
    omega
  simp only [applyBookEvent, hRef, hLevel, hEntry]
  by_cases hz : u32sub entry.qty cxled = 0
  · rw [if_pos hz]
    refine ⟨?_, ?_, harith⟩
    · by_cases hb : ref.is_bid = true <;>
        simp [hb, omFind_omErase_self, hz]
    · intro hcontra
      exact absurd hz hcontra
  · rw [if_neg hz]
    refine ⟨?_, ?_, harith⟩
    · by_cases hb : ref.is_bid = true <;> simp [hb, hRef, hz]
    · intro _
      by_cases hb : ref.is_bid = true <;>
        simp [hb, sideFind_sideSet_self, hRef]



theorem exec_add_record_head (cfg : Config) (oracle : Nat → List OrderAction)
    (fuel : Nat) (s : SimState) (a : OrderAction) (bt : BookTop)
    (hADD : a.type = ActionType.ADD) :
    ∃ t, (exec cfg oracle (fuel+1) (Call.action a bt) s).records =
      s.records ++ (addRecordOf a :: t) := by
  have mono : ∀ (C : Call) (S : SimState), S.records = s.records ++ [addRecordOf a] →
      ∃ t, (exec cfg oracle fuel C S).records = s.records ++ (addRecordOf a :: t) := by
    intro C S hS
    obtain ⟨t, ht⟩ := exec_records_mono cfg oracle fuel C S
    refine ⟨t, ?_⟩
    rw [ht, hS]
    simp
  by_cases hW : wouldOrderBeFilled s.market a.isBid a.price a.quantity = true
  · by_cases hPO : a.isPostOnly = true <;>
      simp [exec, hADD, hW, hPO, bumpExchToNotif] <;>
      first
        | exact ⟨_, rfl⟩
        | exact mono _ _ rfl
  · simp [exec, hADD, hW, bumpExchToNotif] <;>
      first
        | exact ⟨_, rfl⟩
        | exact mono _ _ rfl

/-- C10: an ADD action whose id is already active silently overwrites the
existing `OrderInfo` with a fresh one (filled quantity reset to 0, old
price/quantity/progress discarded), increments `orders_placed`, and
writes a fresh `event_type=1` record; when the new order does not cross,
exactly that one record is appended (no cancel record for the old
order). -/
theorem claim_C10 (cfg : Config) (oracle : Nat → List OrderAction) (fuel : Nat)
    (s : SimState) (a : OrderAction) (bt : BookTop) (old : OrderInfo)
    (hADD : a.type = ActionType.ADD)
    (hOld : aFind s.activeOrders a.orderId = some old) :
    (wouldOrderBeFilled s.market a.isBid a.price a.quantity = false →
      exec cfg oracle (fuel+1) (Call.action a bt) s =
        { s with activeOrders := aInsert s.activeOrders a.orderId (freshOrderOf a),
                 totalOrdersPlaced := u64add s.totalOrdersPlaced 1,
                 records := s.records ++ [addRecordOf a] }) ∧
    aFind (aInsert s.activeOrders a.orderId (freshOrderOf a)) a.orderId =
      some (freshOrderOf a) ∧
    (freshOrderOf a).filledQuantity = 0 ∧
    (addRecordOf a).event_type = 1 ∧
    (∃ t, (exec cfg oracle (fuel+1) (Call.action a bt) s).records =
      s.records ++ (addRecordOf a :: t)) := by
  refine ⟨?_, aFind_aInsert_self _ _ _, rfl, rfl, exec_add_record_head cfg oracle fuel s a bt hADD⟩
  intro hNX
  simp [exec, hADD, hNX, bumpExchToNotif]

/-- Witness for C10: a non-crossing ADD that reuses the resting id of
`wStateWithOrder`. -/
theorem claim_C10_witness :
    exec wCfg nullOracle (0+1) (Call.action wAddRest wTop) wStateWithOrder =
      { wStateWithOrder with
        activeOrders := aInsert wStateWithOrder.activeOrders wAddRest.orderId (freshOrderOf wAddRest),
        totalOrdersPlaced := u64add wStateWithOrder.totalOrdersPlaced 1,
        records := wStateWithOrder.records ++ [addRecordOf wAddRest] } :=
  (claim_C10 wCfg nullOracle 0 wStateWithOrder wAddRest wTop wRestOrder rfl
    (by decide)).1 (by decide)

/-- Witness for C7 on a concrete one-top trace with a resting order. -/
theorem claim_C7_witness : wRestOrder.filledQuantity ≤ wRestOrder.quantity := by
  have hOr : WFOracle wRestOracle := by
    intro n a ha
    unfold wRestOracle at ha
    split_ifs at ha
    · simp at ha
      subst ha
      decide
    · simp at ha
  exact (claim_C7 wCfg wRestOracle 3 [InEvent.top wTop] hOr).1 1 wRestOrder (by decide)

/-- Witness for C9: over-reducing the qty-5 order of `c9qs` by 7 wraps to
`2^32 - 2` and the order stays in the order map. -/
theorem claim_C9_witness :
    u32sub 5 7 = U32 - (7 - 5) ∧
    omFind (applyBookEvent wCfg nullOracle 1 c9qs 200000 2
        (BookEvent.reduceOrder 1 7)).1.orderMap 1 = some { price := 99, is_bid := true } := by
  have h := claim_C9 wCfg nullOracle 1 c9qs 200000 2 1 7 { price := 99, is_bid := true }
    (5, [{ order_id := 1, qty := 5, timestamp := 10 }])
    { order_id := 1, qty := 5, timestamp := 10 } (by decide) (by decide) (by decide)
  exact ⟨h.2.2 (by decide) (by decide), (h.2.1 (by decide)).2⟩

end FillSim
